import Mathlib

/-!
Verification development for the LexNLP date-extraction slice
(`lexnlp/extract/en/dates.py`, `lexnlp/extract/common/dates_classifier_model.py`).

The Python code is shallowly embedded: strings are `List Char` / `String`
(ASCII reading of the `\d`, `\s`, `[A-Za-z]` regex character classes and of
`str.lower` / `str.strip`), machine integers are `Nat` / `Int`, fallible code
returns `Except`, and the pretrained classifier and the locale-aware date
parser (external collaborators of this slice) are parameters of the embedded
functions.
-/

set_option maxRecDepth 4000

/-! ### Python string primitives -/

/-- ASCII whitespace test standing in for Python's `\s` / `str.strip` class. -/
def pyIsSpace (c : Char) : Bool :=
  c.isWhitespace

/-- Python `str.strip()`: drop leading and trailing whitespace. -/
def pyStripChars (l : List Char) : List Char :=
  ((l.dropWhile pyIsSpace).reverse.dropWhile pyIsSpace).reverse

/-- ASCII `str.lower` on one character. -/
def pyLowerChar (c : Char) : Char :=
  if 'A' ≤ c ∧ c ≤ 'Z' then Char.ofNat (c.toNat + 32) else c

/-- ASCII `str.lower` on a string. -/
def pyLowerStr (s : String) : String :=
  String.mk (s.data.map pyLowerChar)

/-- Does `pat` occur at the very start of `l`? -/
def startsWithChars : List Char → List Char → Bool
  | [], _ => true
  | _ :: _, [] => false
  | p :: ps, c :: cs => p = c && startsWithChars ps cs

/-- Python `needle in hay` for strings: substring containment. -/
def containsSub (needle : List Char) : List Char → Bool
  | [] => needle.isEmpty
  | c :: rest => startsWithChars needle (c :: rest) || containsSub needle rest

/-- One step of Python `s.replace(pat, "")`: remove every (non-overlapping,
left-to-right) occurrence of `pat`.  Written with explicit fuel so that the
kernel can evaluate it; `removeAll` supplies enough fuel for the whole
string. -/
def removeAllFuel (pat : List Char) : Nat → List Char → List Char
  | 0, l => l
  | _ + 1, [] => []
  | fuel + 1, c :: rest =>
    if pat ≠ [] ∧ startsWithChars pat (c :: rest) then
      removeAllFuel pat fuel (List.drop (pat.length - 1) rest)
    else
      c :: removeAllFuel pat fuel rest

/-- Python `s.replace(pat, "")` on char lists. -/
def removeAll (pat : List Char) (l : List Char) : List Char :=
  removeAllFuel pat l.length l

/-- Python `s.replace(tok, "")` on strings. -/
def pyReplaceDel (s : String) (tok : String) : String :=
  String.mk (removeAll tok.data s.data)

/-- Core of `re.split('[sep]+', s)`: cut `l` at maximal runs of separator
characters, keeping the empty token a leading or trailing run produces.
Fuel-driven for kernel evaluation; `pySplitParts` supplies enough fuel. -/
def splitFuel (isSep : Char → Bool) : Nat → List Char → List (List Char)
  | 0, l => [l.takeWhile (fun c => !isSep c)]
  | fuel + 1, l =>
    let tok := l.takeWhile (fun c => !isSep c)
    let rest := l.dropWhile (fun c => !isSep c)
    match rest with
    | [] => [tok]
    | _ :: _ => tok :: splitFuel isSep fuel (rest.dropWhile isSep)

/-- Python `re.split('[sep]+', s)`. -/
def pySplitParts (isSep : Char → Bool) (l : List Char) : List (List Char) :=
  splitFuel isSep (l.length + 1) l

/-- Python `str.split()` with no argument: whitespace tokens, empties dropped. -/
def pyStrSplit (s : String) : List String :=
  ((pySplitParts pyIsSpace s.data).filter (fun t => !t.isEmpty)).map
    (fun t => String.mk t)

/-- Python `' '.join(tokens)`. -/
def joinSpace : List String → String
  | [] => ""
  | [t] => t
  | t :: rest => t ++ " " ++ joinSpace rest

/-- Python `"".join(parts)`. -/
def concatAll (l : List String) : String :=
  l.foldl (fun acc t => acc ++ t) ""

/-- Number of occurrences of the character `c`, Python `s.count(c)`. -/
def countChar (c : Char) (l : List Char) : Nat :=
  (l.filter (fun x => x = c)).length

/-- Number of occurrences of an element in a list (Python `list.count`). -/
def countStr (x : String) (l : List String) : Nat :=
  (l.filter (fun y => y = x)).length

/-- Python `s.count(ab)` for a two-character pattern: non-overlapping,
left-to-right occurrence count. -/
def count2 (a b : Char) : List Char → Nat
  | x :: y :: rest =>
    if x = a ∧ y = b then count2 a b rest + 1 else count2 a b (y :: rest)
  | _ => 0

/-- Numeric value of a list of decimal digit characters. -/
def digitsValNat (l : List Char) : Nat :=
  l.foldl (fun a c => a * 10 + (c.toNat - 48)) 0

/-- Python `int(s)` for the decimal digit tokens the candidate locator puts in
`date_props["digits"]` (tokens matching `\d+`). -/
def pyIntDigits (s : String) : Int :=
  (digitsValNat s.data : Int)

/-! ### Candidate data model (`date_props` bag of `DateFinder`) -/

/-- The property bag attached to every raw candidate by the candidate
locator: `digits`, `digits_modifier`, `months`, `days`, `delimiters`,
`extra_tokens`, each a list of string tokens. -/
structure DateProps where
  digits : List String
  digits_modifier : List String
  months : List String
  days : List String
  delimiters : List String
  extra_tokens : List String
deriving DecidableEq

/-! ### The "day of" merge (dates.py lines 117-126) -/

/-- `m.replace("st", "").replace("nd", "").replace("rd", "").replace("th", "")`
from the "day of" merge. -/
def stripOrdinal (s : String) : String :=
  String.mk (removeAll ['t', 'h']
    (removeAll ['r', 'd'] (removeAll ['n', 'd'] (removeAll ['s', 't'] s.data))))

/-- The cross-candidate "day of" merge.  `prev` is the immediately preceding
candidate's property bag paired with its accept/reject outcome (`none` for
the first candidate of the stream).  Returns the (possibly rewritten) date
string, the current candidate's (possibly extended) property bag, and the
previous candidate's (possibly popped) property bag. -/
def mergeDayOf (prev : Option (DateProps × Bool)) (s : String) (dp : DateProps) :
    String × DateProps × Option DateProps :=
  if "of" ∈ dp.extra_tokens ∨ "OF" ∈ dp.extra_tokens then
    match prev with
    | none => (s, dp, none)
    | some (pp, matched) =>
      match pp.digits_modifier, matched with
      | [m], false =>
        (stripOrdinal m ++ s,
         { dp with digits_modifier := dp.digits_modifier ++ [m] },
         some { pp with digits_modifier := [] })
      | _, _ => (s, dp, some pp)
  else
    (s, dp, prev.map Prod.fst)

/-! ### Rejection heuristics (dates.py lines 128-228) -/

/-- `re.match(r'\d{1,2}\s+\d{1,2}', s)` succeeds: after one mandatory
whitespace character, the remaining whitespace run must be followed by a
digit. -/
def spacesThenDigit : List Char → Bool
  | [] => false
  | c :: r =>
    pyIsSpace c &&
      (match r.dropWhile pyIsSpace with
       | d :: _ => d.isDigit
       | [] => false)

/-- `re.match(r'\d{1,2}\s+\d{1,2}', s)`: one or two leading digits, a
whitespace run, then a digit (anchored at the start only). -/
def matchOddDate : List Char → Bool
  | [] => false
  | a :: r =>
    a.isDigit &&
      (spacesThenDigit r ||
        (match r with
         | b :: r2 => b.isDigit && spacesThenDigit r2
         | [] => false))

/-- `re.match(r'\d{2}\.\d{2}\.\d{2,4}', s)` succeeds: the first eight
characters are digit, digit, dot, digit, digit, dot, digit, digit (the
pattern is anchored at the start only, so anything may follow, and the
`{2,4}` upper bound never blocks a match). -/
def matchDdDdDd : List Char → Bool
  | a :: b :: c :: d :: e :: f :: g :: h :: _ =>
    a.isDigit && b.isDigit && c = '.' && d.isDigit && e.isDigit && f = '.' &&
      g.isDigit && h.isDigit
  | _ => false

/-- The shape asserted by the claim for the "skip floats" rule, following the
spec's words: the whole string is exactly two digits, a dot, two digits, a
dot, and then exactly two or exactly four digits — nothing else. -/
def strictDdShape : List Char → Bool
  | [a, b, c, d, e, f, g, h] =>
    a.isDigit && b.isDigit && c = '.' && d.isDigit && e.isDigit && f = '.' &&
      g.isDigit && h.isDigit
  | [a, b, c, d, e, f, g, h, i, j] =>
    a.isDigit && b.isDigit && c = '.' && d.isDigit && e.isDigit && f = '.' &&
      g.isDigit && h.isDigit && i.isDigit && j.isDigit
  | _ => false

/-- `re.search(r'\d{2,4}\.\s*[A-Za-z]', s)` succeeds: somewhere in `s` two
digits are followed by a dot and, after optional whitespace, an ASCII
letter. -/
def scanNDL : List Char → Bool
  | a :: b :: c :: rest =>
    (a.isDigit && b.isDigit && c = '.' &&
      (match rest.dropWhile pyIsSpace with
       | d :: _ => d.isAlpha
       | [] => false))
    || scanNDL (b :: c :: rest)
  | _ => false

/-- "Remove wrong months like Dec*ided or Mar*tin": one month token whose
concatenation with the last extra token occurs in the date string. -/
def falseMonthReject (dp : DateProps) (s : String) : Bool :=
  dp.months.length == 1 && !dp.extra_tokens.isEmpty &&
    containsSub ((dp.months.headD "") ++ (dp.extra_tokens.getLastD "")).data s.data

/-- "Skip floats" (dates.py lines 168-171): a `.` delimiter, no month token,
and the date string does not start with the `dd.dd.dd` prefix shape. -/
def floatsReject (dp : DateProps) (s : String) : Bool :=
  if 0 < countStr "." dp.delimiters ∧ dp.months.length = 0 ∧
      matchDdDdDd s.data = false then true else false

/-- "Skip three-digit blocks and double zero years". -/
def tripleOrDz (dp : DateProps) : Bool :=
  dp.digits.any (fun d => d.length == 3 || startsWithChars ['0', '0'] d.data)

/-- "Skip may alone": no digits, no day-of-week tokens, and the concatenated
month tokens lower-case to exactly "may". -/
def mayAlone (dp : DateProps) : Bool :=
  dp.digits.isEmpty && dp.days.isEmpty &&
    (pyLowerStr (concatAll dp.months) == "may")

/-- "Skip cases like 13.2 may": digits present, a punctuation delimiter, and
the concatenated month tokens lower-case to exactly "may". -/
def mayPunct (dp : DateProps) : Bool :=
  !dp.digits.isEmpty &&
    (0 < countStr "." dp.delimiters + countStr "/" dp.delimiters +
      countStr "-" dp.delimiters : Bool) &&
    (pyLowerStr (concatAll dp.months) == "may")

/-- "Skip numbers only": every delimiter character is a comma, space, newline
or tab, and there is no month token. -/
def numbersOnlyReject (dp : DateProps) : Bool :=
  ((concatAll dp.delimiters).data.all
    (fun c => c = ',' ∨ c = ' ' ∨ c = '\n' ∨ c = '\t')) &&
  dp.months.isEmpty

/-- The pre-cleanup rejection sequence of the filter chain, in source order
(first matching rule rejects; every rule's outcome is rejection, so the
sequential `if ... continue` chain is an ordered disjunction). -/
def chainReject (s1 : String) (dp1 : DateProps) : Bool :=
  if 1 < dp1.months.length then true
  else if falseMonthReject dp1 s1 then true
  else if 0 < dp1.digits_modifier.length ∧ dp1.digits.length = 0 then true
  else if 0 < dp1.days.length ∧ dp1.digits.length = 0 then true
  else if dp1.months.length = 0 ∧ dp1.digits_modifier.length = 0 ∧
      dp1.digits.length ≤ 1 then true
  else if matchOddDate s1.data then true
  else if floatsReject dp1 s1 then true
  else if scanNDL s1.data then true
  else if (countStr "/" dp1.delimiters = 1 ∨ countStr "-" dp1.delimiters = 1) ∧
      2 < dp1.digits.length then true
  else if tripleOrDz dp1 then true
  else if mayAlone dp1 then true
  else if mayPunct dp1 then true
  else false

/-- Stable insertion of a string into a length-descending sorted list
(Python `sorted(key=len, reverse=True)` keeps the original order of
equal-length tokens). -/
def insertByLenDesc (x : String) : List String → List String
  | [] => [x]
  | y :: rest =>
    if y.length < x.length then x :: y :: rest else y :: insertByLenDesc x rest

/-- Python `sorted(tokens, key=len, reverse=True)` (stable). -/
def sortByLenDesc : List String → List String
  | [] => []
  | x :: rest => insertByLenDesc x (sortByLenDesc rest)

/-- The cleanup step: delete every extra token (longest first) except literal
"to"/"t" from the date string, then strip it. -/
def cleanupString (s : String) (extra : List String) : String :=
  let sorted := sortByLenDesc extra
  let s2 := sorted.foldl
    (fun acc tok =>
      if pyLowerStr tok = "to" ∨ pyLowerStr tok = "t" then acc
      else pyReplaceDel acc tok)
    s
  String.mk (pyStripChars s2.data)

/-- Outcome of running one candidate through the heuristic filter chain:
`decision` is the cleaned date string handed to parsing (`none` = rejected),
`props` the current candidate's property bag afterwards, `prevProps` the
previous candidate's bag afterwards. -/
structure ChainOut where
  decision : Option String
  props : DateProps
  prevProps : Option DateProps
deriving DecidableEq

/-- The heuristic filter chain of `get_raw_dates` for one candidate, from the
"day of" merge through the "numbers only" rule (dates.py lines 117-228):
merge, the rejection heuristics, the extra-token cleanup, the length cap and
the numbers-only rejection. -/
def runFilterChain (prev : Option (DateProps × Bool)) (s : String)
    (dp : DateProps) : ChainOut :=
  match mergeDayOf prev s dp with
  | (s1, dp1, prevOut) =>
    if chainReject s1 dp1 then ⟨none, dp1, prevOut⟩
    else
      let s2 := cleanupString s1 dp1.extra_tokens
      let dp2 := { dp1 with extra_tokens := [] }
      if 40 < s2.length then ⟨none, dp2, prevOut⟩
      else if numbersOnlyReject dp1 then ⟨none, dp2, prevOut⟩
      else ⟨some s2, dp2, prevOut⟩

/-! ### Resolved dates and the reconciler (`check_date_parts_are_in_date`) -/

/-- A Python `datetime.datetime` as far as this slice inspects it: the five
components the reconciler reads plus seconds and an optional fixed UTC
offset in seconds (`tzinfo` pass-through). -/
structure PyDateTime where
  year : Int
  month : Int
  day : Int
  hour : Int
  minute : Int
  second : Int
  tzOffset : Option Int
deriving DecidableEq

/-- `_ordinal_to_cardinal`: keep the digit characters of the token, in order,
and read them as a number; `none` when the token has no digits. -/
def ordinalToCardinal (s : String) : Option Int :=
  let digs := s.data.filter Char.isDigit
  if digs.isEmpty then none else some (digitsValNat digs : Int)

/-- The `MONTH_BY_NAME` dictionary built from `EN_MONTHS`. -/
def monthByNameList : List (String × Int) :=
  [("january", 1), ("jan", 1), ("february", 2), ("feb", 2), ("febr", 2),
   ("march", 3), ("mar", 3), ("april", 4), ("apr", 4), ("may", 5),
   ("june", 6), ("jun", 6), ("july", 7), ("jul", 7), ("august", 8),
   ("aug", 8), ("september", 9), ("sep", 9), ("sept", 9), ("october", 10),
   ("oct", 10), ("november", 11), ("nov", 11), ("december", 12), ("dec", 12)]

/-- `MONTH_BY_NAME.get(name)`. -/
def monthByName (s : String) : Option Int :=
  monthByNameList.lookup s

/-- `[int(d) for d in date_props['digits']]`. -/
def datePropDigits (dp : DateProps) : List Int :=
  dp.digits.map pyIntDigits

/-- `[MONTH_BY_NAME.get(month.lower()) for month in date_props['months']]`;
entries are `none` when the token is not a known month name (Python `None`). -/
def datePropMonths (dp : DateProps) : List (Option Int) :=
  dp.months.map (fun m => monthByName (pyLowerStr m))

/-- The ordinal-modifier days: `_ordinal_to_cardinal` of each modifier, with
falsy results (`None` and `0`) filtered out by the `if day` guard. -/
def datePropDays (dp : DateProps) : List Int :=
  (dp.digits_modifier.filterMap ordinalToCardinal).filter (fun d => d ≠ 0)

/-- `combined = [*date_prop_digits, *date_prop_months, *date_prop_days]`,
a mixed list of numbers and Python `None` entries. -/
def combinedVals (dp : DateProps) : List (Option Int) :=
  (datePropDigits dp).map some ++ datePropMonths dp ++ (datePropDays dp).map some

/-- `[date.year, date.month, date.day, date.hour, date.minute]`. -/
def dateValuesList (d : PyDateTime) : List Int :=
  [d.year, d.month, d.day, d.hour, d.minute]

/-- `short_year = (v - 100 * (v // 100)) if v > 1000 else v`. -/
def shortYear (v : Int) : Int :=
  if v > 1000 then v - 100 * (v / 100) else v

/-- Greedy match of the year component: the short two-digit form is tried
first (for years over 1000), then the full value; the returned value is what
the source appends to `removeable`. -/
def yearMatchVal (d : PyDateTime) (dp : DateProps) : Option Int :=
  let combined := combinedVals dp
  let sy := shortYear d.year
  if combined.contains (some sy) then some sy
  else if combined.contains (some d.year) then some d.year
  else none

/-- Greedy match of a non-year component against the combined literal list. -/
def unitMatchVal (combined : List (Option Int)) (v : Int) : Option Int :=
  if combined.contains (some v) then some v else none

/-- The `removeable` list after greedy matching, in component order. -/
def removeableVals (d : PyDateTime) (dp : DateProps) : List Int :=
  let combined := combinedVals dp
  [yearMatchVal d dp, unitMatchVal combined d.month, unitMatchVal combined d.day,
   unitMatchVal combined d.hour, unitMatchVal combined d.minute].filterMap id

/-- `diff_digits`: members of `set(combined) - set(date_values)` that were not
consumed by the greedy matching. -/
def diffDigitsVals (d : PyDateTime) (dp : DateProps) : List (Option Int) :=
  ((combinedVals dp).dedup).filter
    (fun x =>
      !((dateValuesList d).map some).contains x &&
      !((removeableVals d dp).map some).contains x)

/-- Is one of the first three components (year, month, day) left unmatched by
the greedy matching (`diff_units` restricted to `units_of_time[:3]`)? -/
def firstThreeUnmatched (d : PyDateTime) (dp : DateProps) : Bool :=
  (yearMatchVal d dp).isNone ||
  (unitMatchVal (combinedVals dp) d.month).isNone ||
  (unitMatchVal (combinedVals dp) d.day).isNone

/-- The early rejection: a month token is present, the resolved month is
non-zero, and it is not among the candidate's month numbers ("skip cases
like Section 7.7.10 may"). -/
def earlyMonthReject (d : PyDateTime) (dp : DateProps) : Bool :=
  !(datePropMonths dp).isEmpty && d.month ≠ 0 &&
    !(datePropMonths dp).contains (some d.month)

/-- The final rejection test of the reconciler: some of year/month/day is
unmatched and some literal value is unmatched. -/
def greedyUnmatchedReject (d : PyDateTime) (dp : DateProps) : Bool :=
  firstThreeUnmatched d dp && !(diffDigitsVals d dp).isEmpty

/-- `check_date_parts_are_in_date(date, date_props)`: the date-parts
reconciler (dates.py lines 282-348). -/
def check_date_parts_are_in_date (d : PyDateTime) (dp : DateProps) : Bool :=
  if earlyMonthReject d dp then false
  else if greedyUnmatchedReject d dp then false
  else true

/-! ### Parse-with-retry (dates.py lines 230-256) -/

/-- Outcome of one `date_finder.parse_date_string` attempt, as the retry loop
distinguishes them: a resolved date, a `None` return, an exception other than
the locale error (logged and treated as no match), or the distinguished
locale-configuration error.

Modelled from the spec for the missing collaborator: the locale object's
distinguished error class (`locale.Error` on the `Locale` instance,
`lexnlp.extract.all_locales.languages` is outside this slice) is the
"locale-configuration error that must propagate". -/
inductive ParseResult where
  | ok (d : PyDateTime)
  | noneResult
  | otherError
  | localeError
deriving DecidableEq

/-- The string handed to `parse_date_string` at a given `cutter`/`direction`
iteration: the original cleaned string when `cutter = 0`, otherwise the
space-join of the token list with `cutter` tokens dropped from the back
(`direction = 0`) or from the front (`direction = 1`). -/
def attemptString (s : String) (tokens : List String) (cutter direction : Nat) :
    String :=
  if 0 < cutter then
    if direction = 1 then joinSpace (tokens.drop cutter)
    else joinSpace (tokens.take (tokens.length - cutter))
  else s

/-- The nested `for cutter / for direction` loop with its break/continue
structure: for each cutter value, direction 0 then direction 1; a resolved
date breaks out, a locale error propagates, anything else continues. -/
def runCutters (parse : String → ParseResult) (s : String)
    (tokens : List String) : List Nat → Except Unit (Option PyDateTime)
  | [] => Except.ok none
  | c :: rest =>
    match parse (attemptString s tokens c 0) with
    | ParseResult.ok d => Except.ok (some d)
    | ParseResult.localeError => Except.error ()
    | _ =>
      match parse (attemptString s tokens c 1) with
      | ParseResult.ok d => Except.ok (some d)
      | ParseResult.localeError => Except.error ()
      | _ => runCutters parse s tokens rest

/-- The whole parse-with-retry block: split the cleaned string on whitespace
and run the cutter loop over `range(len(tokens))`.  `Except.error ()` is the
propagated locale-configuration error; `Except.ok none` means every attempt
failed and the candidate is rejected. -/
def parseWithRetry (parse : String → ParseResult) (s : String) :
    Except Unit (Option PyDateTime) :=
  let toks := pyStrSplit s
  runCutters parse s toks (List.range toks.length)

/-- The flat sequence of strings the retry loop hands to the parser, in
attempt order. -/
def codeAttemptSeq (s : String) : List String :=
  let toks := pyStrSplit s
  (List.range toks.length).flatMap
    (fun c => [attemptString s toks c 0, attemptString s toks c 1])

/-- First-success scan over a flat attempt list: a resolved date stops the
scan, a locale error propagates, anything else moves on. -/
def runAttemptList (parse : String → ParseResult) :
    List String → Except Unit (Option PyDateTime)
  | [] => Except.ok none
  | a :: rest =>
    match parse a with
    | ParseResult.ok d => Except.ok (some d)
    | ParseResult.localeError => Except.error ()
    | _ => runAttemptList parse rest

/-- The attempt order asserted by the claim, following the spec's words: the
full token sequence first, then for each trim length `k` from `1` to
`len(tokens) - 1` first `k` tokens dropped from the front, then `k` tokens
dropped from the back. -/
def claimAttempts (s : String) (tokens : List String) : List String :=
  s :: (List.range' 1 (tokens.length - 1)).flatMap
    (fun k => [joinSpace (tokens.drop k), joinSpace (tokens.take (tokens.length - k))])

/-- The retry loop the claim describes (spec-side definition, for comparison
with `parseWithRetry`). -/
def claimRetry (parse : String → ParseResult) (s : String) :
    Except Unit (Option PyDateTime) :=
  runAttemptList parse (claimAttempts s (pyStrSplit s))

/-- The attempt order actually implemented, stated as the amended claim reads:
no attempt at all for an empty token list, otherwise the full string first
and then, for each trim length `k` from `1` to `len(tokens) - 1`, first `k`
tokens dropped from the back, then `k` tokens dropped from the front. -/
def amendedAttempts (s : String) (tokens : List String) : List String :=
  if tokens.length = 0 then []
  else
    s :: (List.range' 1 (tokens.length - 1)).flatMap
      (fun k => [joinSpace (tokens.take (tokens.length - k)), joinSpace (tokens.drop k)])

/-! ### Post-parse stage of `get_raw_dates` (lines 258-279) -/

/-- A value yielded by `get_raw_dates`: either a plain `datetime.date` or a
full `datetime.datetime`. -/
inductive YieldedDate where
  | date (year month day : Int)
  | datetime (dt : PyDateTime)
deriving DecidableEq

/-- `date.isoformat()` succeeds: a fixed UTC offset must be strictly between
-24 and +24 hours (the `ValueError` branch guarded at lines 264-270). -/
def isoformatOk (d : PyDateTime) : Bool :=
  match d.tzOffset with
  | none => true
  | some o => -86400 < o ∧ o < 86400

/-- The tail of the `get_raw_dates` loop body after parsing: reconcile the
parsed date against the candidate's properties, reject dates whose ISO
representation cannot be computed, and convert a midnight datetime (hour and
minute both zero) to a plain date before yielding. -/
def postParse (date : Option PyDateTime) (dp : DateProps) : Option YieldedDate :=
  let checked :=
    match date with
    | some d => if check_date_parts_are_in_date d dp then some d else none
    | none => none
  match checked with
  | none => none
  | some d =>
    if isoformatOk d then
      if d.hour = 0 ∧ d.minute = 0 then some (YieldedDate.date d.year d.month d.day)
      else some (YieldedDate.datetime d)
    else none

/-! ### Feature extraction (`dates_classifier_model.py`) -/

/-- The separator class of `REG_WORD_SEPARATOR`:
whitespace plus the punctuation listed in the character class. -/
def isDateSep (c : Char) : Bool :=
  pyIsSpace c || c = '-' || c = '.' || c = '[' || c = ']' ||
    c = Char.ofNat 123 || c = Char.ofNat 125 || c = '(' || c = ')' ||
    c = ',' || c = ';' || c = ':' || c = '+' || c = '\\' || c = '/'

/-- `split_date_words(date_str)`: `REG_WORD_SEPARATOR.split`. -/
def split_date_words (l : List Char) : List (List Char) :=
  pySplitParts isDateSep l

/-- `itertools.permutations(characters, 2)`: every ordered pair of entries at
distinct positions, in iteration order. -/
def perms2Aux (pre : List Char) : List Char → List (Char × Char)
  | [] => []
  | a :: post => ((pre ++ post).map (fun b => (a, b))) ++ perms2Aux (pre ++ [a]) post

/-- The bigram index set of `get_date_features`. -/
def perms2 (l : List Char) : List (Char × Char) :=
  perms2Aux [] l

/-- The context window of `get_date_features`:
`text[max(0, start - window) : min(len(text), end + window)].strip()`. -/
def featureWindowText (text : String) (startIndex endIndex window : Nat) :
    List Char :=
  let ws := startIndex - window
  let we := min text.data.length (endIndex + window)
  pyStripChars ((text.data.drop ws).take (we - ws))

/-- The feature vector `get_date_features` builds: the `char_<c>` family as a
function of the tracked character, the `bigram_<c1c2>` family as a function
of the tracked pair (`none` when bigram features are disabled), and the four
word-shape counts (`none` when word counting is disabled). -/
structure FeatureVec where
  charF : Char → ℚ
  bigramF : Option (Char → Char → ℚ)
  nb31 : Option ℚ
  na31 : Option ℚ
  wrL : Option ℚ
  wrU : Option ℚ

/-- The char/bigram part of `get_date_features` (always computed): raw window
counts, each family independently normalized by its own sum when `norm` is
set and the sum is positive. -/
def dateFeaturesVec (text : String) (startIndex endIndex : Nat)
    (characters : List Char) (includeBigrams : Bool) (window : Nat)
    (norm : Bool) : FeatureVec :=
  let featureText := featureWindowText text startIndex endIndex window
  let charCount : Char → Nat := fun c => countChar c featureText
  let charSum : Nat := (characters.map charCount).sum
  let charF : Char → ℚ := fun c =>
    if norm then
      if 0 < charSum then (charCount c : ℚ) / (charSum : ℚ) else (charCount c : ℚ)
    else (charCount c : ℚ)
  let bigramCount : Char → Char → Nat := fun a b => count2 a b featureText
  let bigramSum : Nat := ((perms2 characters).map (fun p => bigramCount p.1 p.2)).sum
  let bigramF : Option (Char → Char → ℚ) :=
    if includeBigrams then
      some (fun a b =>
        if norm then
          if 0 < bigramSum then (bigramCount a b : ℚ) / (bigramSum : ℚ)
          else (bigramCount a b : ℚ)
        else (bigramCount a b : ℚ))
    else none
  ⟨charF, bigramF, none, none, none, none⟩

/-- The word-shape counting loop: over the separator-split tokens of the
candidate text, count numbers above 31, numbers below 31, lower-case words
and capitalized words, in that accumulator order. -/
def classifyWords (aset : List Char) (tokens : List (List Char)) :
    Nat × Nat × Nat × Nat :=
  tokens.foldl
    (fun acc wrd =>
      match wrd with
      | [] => acc
      | w0 :: wrest =>
        if w0 ∈ aset then
          let isCap :=
            !wrest.isEmpty && (pyLowerChar w0 != w0) &&
              (match wrest with
               | w1 :: _ => pyLowerChar w1 == w1
               | [] => false)
          if isCap then (acc.1, acc.2.1, acc.2.2.1, acc.2.2.2 + 1)
          else (acc.1, acc.2.1, acc.2.2.1 + 1, acc.2.2.2)
        else
          let ds := wrd.takeWhile Char.isDigit
          if ds.isEmpty then acc
          else if digitsValNat ds < 31 then (acc.1, acc.2.1 + 1, acc.2.2.1, acc.2.2.2)
          else (acc.1 + 1, acc.2.1, acc.2.2.1, acc.2.2.2))
    (0, 0, 0, 0)

/-- `get_date_features(text, start_index, end_index, characters,
alphabet_char_set, include_bigrams, window, norm, count_words)`.

The Python default `alphabet_char_set=False` is modelled as `none`: with word
counting enabled, the membership test `wrd[0] in alphabet_char_set` on that
default raises `TypeError` at the first non-empty token, modelled as
`Except.error`. -/
def get_date_features (text : String) (startIndex endIndex : Nat)
    (characters : List Char) (alphabetCharSet : Option (List Char))
    (includeBigrams : Bool) (window : Nat) (norm : Bool) (countWords : Bool) :
    Except String FeatureVec :=
  let base := dateFeaturesVec text startIndex endIndex characters includeBigrams
    window norm
  if countWords then
    let dateText := (text.data.drop startIndex).take (endIndex - startIndex)
    let tokens := split_date_words dateText
    match alphabetCharSet with
    | none =>
      if tokens.any (fun t => !t.isEmpty) then
        Except.error "TypeError: argument of type bool is not iterable"
      else
        Except.ok { base with nb31 := some 0, na31 := some 0,
                              wrL := some 0, wrU := some 0 }
    | some aset =>
      let counts := classifyWords aset tokens
      let na := counts.1
      let nb := counts.2.1
      let wl := counts.2.2.1
      let wu := counts.2.2.2
      let total := na + nb + wl + wu
      if norm ∧ 0 < total then
        Except.ok { base with nb31 := some ((nb : ℚ) / (total : ℚ)),
                              na31 := some ((na : ℚ) / (total : ℚ)),
                              wrL := some ((wl : ℚ) / (total : ℚ)),
                              wrU := some ((wu : ℚ) / (total : ℚ)) }
      else
        Except.ok { base with nb31 := some (nb : ℚ), na31 := some (na : ℚ),
                              wrL := some (wl : ℚ), wrU := some (wu : ℚ) }
  else
    Except.ok base

/-! ### Scoring layer (`get_date_annotations`, dates.py lines 379-414) -/

/-- A feature-column name of the pretrained model: a `char_<c>` or
`bigram_<c1c2>` key. -/
inductive FeatureKey where
  | ch (c : Char)
  | bg (a b : Char)
deriving DecidableEq

/-- `feature_row[col]`: read one model column out of the computed vector. -/
def vecLookup (v : FeatureVec) : FeatureKey → ℚ
  | FeatureKey.ch c => v.charF c
  | FeatureKey.bg a b =>
    match v.bigramF with
    | some f => f a b
    | none => 0

/-- The accepted output record: span coordinates, covered source text,
resolved date and classifier score. -/
structure DateAnnot where
  coords : Nat × Nat
  txt : String
  date : YieldedDate
  score : ℚ
deriving DecidableEq

/-- `text[slice(*coordinates)]`. -/
def sliceText (text : String) (coords : Nat × Nat) : String :=
  String.mk ((text.data.drop coords.1).take (coords.2 - coords.1))

/-- The scoring loop of `get_date_annotations`: for every raw date with its
span, compute the feature row on the original text with the model's tracked
characters (defaults: bigrams on, window 5, normalized, no word counts),
assemble the feature list in the model's column order, score it with the
classifier's true-positive probability, and emit a record exactly when that
score is at least the threshold.  The pretrained classifier
(`MODEL_DATE.predict_proba`, giving `date_score[0, 1]`) and its column order
are external artifacts, passed as `predictProba` and `columns`; the raw-date
stream of `get_raw_dates` is passed as `rawDates`. -/
def get_date_annots (predictProba : List ℚ → ℚ) (columns : List FeatureKey)
    (modelChars : List Char) (text : String) (threshold : ℚ)
    (rawDates : List (YieldedDate × (Nat × Nat))) : List DateAnnot :=
  rawDates.filterMap
    (fun rd =>
      let row := dateFeaturesVec text rd.2.1 rd.2.2 modelChars true 5 true
      let featureList := columns.map (vecLookup row)
      let score := predictProba featureList
      if threshold ≤ score then
        some ⟨rd.2, sliceText text rd.2, rd.1, score⟩
      else none)

/-! ### Concrete functions used by counterexamples and witnesses -/

/-- A parser that resolves exactly the one-token strings "a" and "b", to two
different dates. -/
def c2Parse : String → ParseResult := fun s =>
  if s = "a" then ParseResult.ok ⟨2001, 1, 1, 0, 0, 0, none⟩
  else if s = "b" then ParseResult.ok ⟨2002, 2, 2, 0, 0, 0, none⟩
  else ParseResult.noneResult

/-- A parser that raises the locale-configuration error on the full string
"a" and otherwise returns `None`. -/
def c8Parse : String → ParseResult := fun s =>
  if s = "a" then ParseResult.localeError else ParseResult.noneResult

/-! ### Helper lemmas -/

theorem listBindCongr {α β : Type} {f g : α → List β} :
    ∀ (l : List α), (∀ x ∈ l, f x = g x) → l.flatMap f = l.flatMap g := by
  intro l
  induction l with
  | nil => intro _; rfl
  | cons a rest ih =>
    intro h
    simp only [List.flatMap_cons]
    rw [h a (List.mem_cons_self a rest),
      ih (fun x hx => h x (List.mem_cons_of_mem a hx))]

theorem runCutters_eq_runAttemptList (parse : String → ParseResult) (s : String)
    (toks : List String) :
    ∀ l, runCutters parse s toks l =
      runAttemptList parse
        (l.flatMap (fun c => [attemptString s toks c 0, attemptString s toks c 1])) := by
  intro l
  induction l with
  | nil => rfl
  | cons c rest ih =>
    simp only [List.flatMap_cons, List.cons_append, runCutters]
    cases h0 : parse (attemptString s toks c 0) with
    | ok d => simp [runAttemptList, h0]
    | localeError => simp [runAttemptList, h0]
    | noneResult =>
      cases h1 : parse (attemptString s toks c 1) with
      | ok d => simp [runAttemptList, h0, h1]
      | localeError => simp [runAttemptList, h0, h1]
      | noneResult => simp [runAttemptList, h0, h1, ih]
      | otherError => simp [runAttemptList, h0, h1, ih]
    | otherError =>
      cases h1 : parse (attemptString s toks c 1) with
      | ok d => simp [runAttemptList, h0, h1]
      | localeError => simp [runAttemptList, h0, h1]
      | noneResult => simp [runAttemptList, h0, h1, ih]
      | otherError => simp [runAttemptList, h0, h1, ih]

theorem parseWithRetry_eq_attemptSeq (parse : String → ParseResult) (s : String) :
    parseWithRetry parse s = runAttemptList parse (codeAttemptSeq s) :=
  runCutters_eq_runAttemptList parse s (pyStrSplit s) (List.range (pyStrSplit s).length)

theorem runAttemptList_cons_dup (parse : String → ParseResult) (a : String)
    (l : List String) :
    runAttemptList parse (a :: a :: l) = runAttemptList parse (a :: l) := by
  cases h : parse a <;> simp [runAttemptList, h]

/-! ### C2: order of the trim retries -/

/-- C2 counterexample: with a parser that resolves the one-token strings "a"
and "b" to two different dates, the retry loop on "a b" resolves via the
back-trimmed string "a" (the code tries `tokens[:-cutter]` at direction 0
before `tokens[cutter:]` at direction 1), while the claimed front-first order
would resolve via "b"; so the claim's attempt order is not the implemented
one. -/
theorem c2_front_back_counterexample :
    parseWithRetry c2Parse "a b" = Except.ok (some ⟨2001, 1, 1, 0, 0, 0, none⟩)
    ∧ claimRetry c2Parse "a b" = Except.ok (some ⟨2002, 2, 2, 0, 0, 0, none⟩)
    ∧ (⟨2001, 1, 1, 0, 0, 0, none⟩ : PyDateTime) ≠ ⟨2002, 2, 2, 0, 0, 0, none⟩ := by
  refine ⟨rfl, rfl, by decide⟩

/-- C2 (amended): for a cleaned candidate of `n` whitespace-separated tokens
the parse is first attempted on the full string (no attempt at all when
`n = 0`), and then for each trim length `k` from `1` to `n - 1` first with
`k` tokens dropped from the back, then with `k` tokens dropped from the
front, stopping at the first successful parse; if no attempt succeeds the
candidate is rejected. -/
theorem c2_retry_order_amended (parse : String → ParseResult) (s : String) :
    parseWithRetry parse s =
      runAttemptList parse (amendedAttempts s (pyStrSplit s)) := by
  rw [parseWithRetry_eq_attemptSeq]
  simp only [codeAttemptSeq, amendedAttempts]
  cases hn : (pyStrSplit s).length with
  | zero => simp [hn]
  | succ n =>
    simp only [Nat.succ_ne_zero, if_false, Nat.succ_sub_one]
    rw [List.range_eq_range', List.range'_succ]
    simp only [List.flatMap_cons, Nat.zero_add]
    have h00 : attemptString s (pyStrSplit s) 0 0 = s := rfl
    have h01 : attemptString s (pyStrSplit s) 0 1 = s := rfl
    rw [h00, h01]
    have hbind :
        (List.range' 1 n).flatMap
            (fun c => [attemptString s (pyStrSplit s) c 0,
                       attemptString s (pyStrSplit s) c 1]) =
        (List.range' 1 n).flatMap
            (fun k => [joinSpace ((pyStrSplit s).take (n + 1 - k)),
                       joinSpace ((pyStrSplit s).drop k)]) := by
      apply listBindCongr
      intro c hc
      have hpos : 0 < c := (List.mem_range'_1.mp hc).1
      simp [attemptString, hpos, hn]
    simp only [List.cons_append, List.nil_append]
    rw [hbind]
    exact runAttemptList_cons_dup parse s _

/-! ### C8: locale errors propagate, other parse errors are swallowed -/

/-- C8: along the retry loop's attempt sequence, as long as every earlier
attempt returned `None` or raised a non-locale exception, the next attempt
fully determines the loop: a locale-configuration error aborts the whole run
with the propagated error, a non-locale exception (or `None`) is swallowed
and the loop continues with the remaining attempts, and a resolved date
stops the loop with that date. -/
theorem c8_locale_error_propagation (parse : String → ParseResult) (s : String)
    (pre : List String) (a : String) (post : List String)
    (hseq : codeAttemptSeq s = pre ++ a :: post)
    (hpre : ∀ b ∈ pre, parse b = ParseResult.noneResult ∨
      parse b = ParseResult.otherError) :
    (parse a = ParseResult.localeError →
      parseWithRetry parse s = Except.error ())
    ∧ (parse a = ParseResult.otherError →
      parseWithRetry parse s = runAttemptList parse post)
    ∧ (∀ d, parse a = ParseResult.ok d →
      parseWithRetry parse s = Except.ok (some d)) := by
  rw [parseWithRetry_eq_attemptSeq, hseq]
  clear hseq
  induction pre with
  | nil =>
    refine ⟨fun h => ?_, fun h => ?_, fun d h => ?_⟩ <;>
      simp [runAttemptList, h]
  | cons b rest ih =>
    have hb := hpre b (List.mem_cons_self b rest)
    have ihr := ih (fun x hx => hpre x (List.mem_cons_of_mem b hx))
    cases hb with
    | inl h => simpa [runAttemptList, h] using ihr
    | inr h => simpa [runAttemptList, h] using ihr

/-- C8 witness: a parser raising the locale error on the very first attempt
makes the retry loop abort with the propagated error. -/
theorem c8_locale_error_propagation_witness :
    parseWithRetry c8Parse "a" = Except.error () :=
  (c8_locale_error_propagation c8Parse "a" [] "a" ["a"] rfl
    (fun b hb => absurd hb (List.not_mem_nil b))).1 rfl

/-! ### C4: trigger condition of the "day of" merge -/

/-- C4 counterexample: a candidate whose extra tokens contain "Of" (a mixed
casing the claim says triggers the merge), whose predecessor was rejected
with exactly one digit-modifier token, is left completely unchanged by the
merge — the source tests only the exact spellings "of" and "OF". -/
theorem c4_case_counterexample :
    mergeDayOf (some ((⟨[], ["22nd"], [], [], [], []⟩ : DateProps), false))
        "5 March 2020" ⟨["5"], [], ["march"], [], [], ["Of"]⟩ =
      ("5 March 2020", ⟨["5"], [], ["march"], [], [], ["Of"]⟩,
        some (⟨[], ["22nd"], [], [], [], []⟩ : DateProps))
    ∧ stripOrdinal "22nd" ++ "5 March 2020" ≠ "5 March 2020" :=
  ⟨by decide, by decide⟩

/-- C4 (amended): the merge fires exactly for candidates whose extra tokens
contain the token written exactly "of" or exactly "OF" (other casings do not
trigger it), whose predecessor was rejected and carried exactly one
digit-modifier token; that modifier, with every "st"/"nd"/"rd"/"th"
occurrence removed, is prepended to the date string, the modifier is
appended to the current candidate's digit-modifier list, and it is popped
from the predecessor's list; the merge never fires for the first candidate
of the stream. -/
theorem c4_merge_amended (pp dp : DateProps) (s m : String) :
    mergeDayOf none s dp = (s, dp, none)
    ∧ (("of" ∈ dp.extra_tokens ∨ "OF" ∈ dp.extra_tokens) →
        pp.digits_modifier = [m] →
        mergeDayOf (some (pp, false)) s dp =
          (stripOrdinal m ++ s,
           { dp with digits_modifier := dp.digits_modifier ++ [m] },
           some { pp with digits_modifier := [] }))
    ∧ (¬("of" ∈ dp.extra_tokens ∨ "OF" ∈ dp.extra_tokens) →
        ∀ (b : Bool), mergeDayOf (some (pp, b)) s dp = (s, dp, some pp)) := by
  refine ⟨?_, ?_, ?_⟩
  · unfold mergeDayOf
    split <;> rfl
  · intro hof hm
    unfold mergeDayOf
    rw [if_pos hof]
    simp only [hm]
  · intro hof b
    unfold mergeDayOf
    rw [if_neg hof]
    rfl

/-- C4 witness: the merge applied at a concrete rejected predecessor carrying
"22nd" and a candidate with extra token "of". -/
theorem c4_merge_amended_witness :
    mergeDayOf (some ((⟨[], ["22nd"], [], [], [], []⟩ : DateProps), false))
        "5 March" ⟨["5"], [], ["march"], [], [], ["of"]⟩ =
      (stripOrdinal "22nd" ++ "5 March",
       { (⟨["5"], [], ["march"], [], [], ["of"]⟩ : DateProps) with
           digits_modifier :=
             (⟨["5"], [], ["march"], [], [], ["of"]⟩ : DateProps).digits_modifier
               ++ ["22nd"] },
       some { (⟨[], ["22nd"], [], [], [], []⟩ : DateProps) with
           digits_modifier := [] }) :=
  (c4_merge_amended ⟨[], ["22nd"], [], [], [], []⟩
    ⟨["5"], [], ["march"], [], [], ["of"]⟩ "5 March" "22nd").2.1
    (Or.inl (by decide)) rfl

/-! ### C7: frame of the filter chain over the candidate's properties -/

theorem mergePreservesFields (prev : Option (DateProps × Bool)) (s : String)
    (dp : DateProps) :
    ((mergeDayOf prev s dp).2.1.digits = dp.digits
     ∧ (mergeDayOf prev s dp).2.1.months = dp.months
     ∧ (mergeDayOf prev s dp).2.1.days = dp.days
     ∧ (mergeDayOf prev s dp).2.1.delimiters = dp.delimiters
     ∧ (mergeDayOf prev s dp).2.1.extra_tokens = dp.extra_tokens)
    ∧ ((mergeDayOf prev s dp).2.2.map DateProps.digits =
        prev.map (fun p => p.1.digits)
     ∧ (mergeDayOf prev s dp).2.2.map DateProps.months =
        prev.map (fun p => p.1.months)
     ∧ (mergeDayOf prev s dp).2.2.map DateProps.days =
        prev.map (fun p => p.1.days)
     ∧ (mergeDayOf prev s dp).2.2.map DateProps.delimiters =
        prev.map (fun p => p.1.delimiters)
     ∧ (mergeDayOf prev s dp).2.2.map DateProps.extra_tokens =
        prev.map (fun p => p.1.extra_tokens)) := by
  rcases prev with _ | ⟨pp, matched⟩
  · unfold mergeDayOf
    split <;> simp
  · unfold mergeDayOf
    split
    · rcases hdm : pp.digits_modifier with _ | ⟨m, rest⟩
      · cases matched <;> simp [hdm]
      · rcases rest with _ | ⟨m2, rest2⟩
        · cases matched <;> simp [hdm]
        · cases matched <;> simp [hdm]
    · simp

/-- C7 counterexample: with a rejected predecessor carrying the single
digit-modifier "22nd" and a current candidate whose extra tokens contain
"of", the filter chain changes the current candidate's `digits_modifier`
(extended by the merge) and the predecessor's bag (its modifier is popped) —
so `digits_modifier` is not left unchanged by the chain. -/
theorem c7_frame_counterexample :
    (runFilterChain (some ((⟨[], ["22nd"], [], [], [], []⟩ : DateProps), false))
        "5 March 2020" ⟨["5"], [], ["march"], [], [], ["of"]⟩).props.digits_modifier
      ≠ (⟨["5"], [], ["march"], [], [], ["of"]⟩ : DateProps).digits_modifier
    ∧ (runFilterChain (some ((⟨[], ["22nd"], [], [], [], []⟩ : DateProps), false))
        "5 March 2020" ⟨["5"], [], ["march"], [], [], ["of"]⟩).prevProps
      ≠ some (⟨[], ["22nd"], [], [], [], []⟩ : DateProps) :=
  ⟨by decide, by decide⟩

/-- C7 (amended): the filter chain modifies only the date string, the current
candidate's `extra_tokens` (cleared at cleanup) and — through the "day of"
merge — the `digits_modifier` lists of the current and previous candidates;
the `digits`, `months`, `days` and `delimiters` of the current candidate and
all fields of the previous candidate except `digits_modifier` are unchanged
by the whole chain. -/
theorem c7_frame_amended (prev : Option (DateProps × Bool)) (s : String)
    (dp : DateProps) :
    ((runFilterChain prev s dp).props.digits = dp.digits
     ∧ (runFilterChain prev s dp).props.months = dp.months
     ∧ (runFilterChain prev s dp).props.days = dp.days
     ∧ (runFilterChain prev s dp).props.delimiters = dp.delimiters)
    ∧ ((runFilterChain prev s dp).prevProps.map DateProps.digits =
        prev.map (fun p => p.1.digits)
     ∧ (runFilterChain prev s dp).prevProps.map DateProps.months =
        prev.map (fun p => p.1.months)
     ∧ (runFilterChain prev s dp).prevProps.map DateProps.days =
        prev.map (fun p => p.1.days)
     ∧ (runFilterChain prev s dp).prevProps.map DateProps.delimiters =
        prev.map (fun p => p.1.delimiters)
     ∧ (runFilterChain prev s dp).prevProps.map DateProps.extra_tokens =
        prev.map (fun p => p.1.extra_tokens)) := by
  have h := mergePreservesFields prev s dp
  unfold runFilterChain
  rcases hm : mergeDayOf prev s dp with ⟨s1, dp1, po⟩
  rw [hm] at h
  simp only at h ⊢
  split
  · simp_all
  · split
    · simp_all
    · split <;> simp_all

/-! ### C5: the "skip floats" rule -/

/-- C5 counterexample: the candidate "12.34.567" with a `.` delimiter, no
month token and two digit tokens survives the whole filter chain (its
cleaned string is handed to parsing), although its date string is not of the
exact `dd.dd.yy` / `dd.dd.yyyy` shape the claim requires — the source regex
is anchored at the start only and accepts a three-digit final group. -/
theorem c5_shape_counterexample :
    (runFilterChain none "12.34.567"
        ⟨["12", "34"], [], [], [], ["."], []⟩).decision = some "12.34.567"
    ∧ strictDdShape "12.34.567".data = false
    ∧ 0 < countStr "." (["."] : List String)
    ∧ (⟨["12", "34"], [], [], [], ["."], []⟩ : DateProps).months = [] :=
  ⟨by decide, by decide, by decide, rfl⟩

set_option maxHeartbeats 1600000 in
/-- C5 (amended): a candidate with a `.` delimiter and no month token whose
date string does not begin with the prefix shape digit, digit, dot, digit,
digit, dot, digit, digit is rejected by the filter chain; when the date
string does begin with that shape (the regex is anchored at the start only,
so a third digit or any other characters may follow, and the `{2,4}` final
group never blocks the match) the floats rule does not reject it. -/
theorem c5_floats_amended (s : String) (dp : DateProps) :
    (0 < countStr "." dp.delimiters → dp.months = [] →
      matchDdDdDd s.data = false →
      (runFilterChain none s dp).decision = none)
    ∧ (0 < countStr "." dp.delimiters → dp.months = [] →
      matchDdDdDd s.data = true → floatsReject dp s = false) := by
  constructor
  · intro h1 h2 h3
    have hfr : floatsReject dp s = true := by
      simp [floatsReject, h1, h2, h3]
    have hmn : mergeDayOf none s dp = (s, dp, none) := by
      unfold mergeDayOf
      split <;> rfl
    have hcr : chainReject s dp = true := by
      unfold chainReject
      simp only [hfr]
      repeat' split
      all_goals first | rfl | simp_all
    unfold runFilterChain
    rw [hmn]
    simp [hcr]
  · intro h1 h2 h3
    simp [floatsReject, h3]

/-- C5 witness: a concrete dot-delimited, month-free candidate whose string
fails the prefix shape is rejected. -/
theorem c5_floats_amended_witness :
    (runFilterChain none "1.2" ⟨[], [], [], [], ["."], []⟩).decision = none :=
  (c5_floats_amended "1.2" ⟨[], [], [], [], ["."], []⟩).1 (by decide) rfl (by decide)

/-! ### C3: the date-parts reconciler -/

/-- C3 counterexample: for the resolved date 2023-03-15 and a candidate with
digits 3, 2023, 15 and month token "jan", the reconciler rejects (the early
month-membership check fires: resolved month 3 is not among the candidate's
month numbers), yet the claim's greedy-matching condition does not hold —
every one of year, month and day is greedily matched — so "rejects exactly
when the greedy condition holds" is false. -/
theorem c3_early_month_counterexample :
    check_date_parts_are_in_date ⟨2023, 3, 15, 0, 0, 0, none⟩
        ⟨["3", "2023", "15"], [], ["jan"], [], [], []⟩ = false
    ∧ greedyUnmatchedReject ⟨2023, 3, 15, 0, 0, 0, none⟩
        ⟨["3", "2023", "15"], [], ["jan"], [], [], []⟩ = false :=
  ⟨by decide, by decide⟩

/-- C3 (amended): the reconciler rejects a resolved date exactly when either
the candidate carries a month token, the resolved month is non-zero and not
among the candidate's month numbers, or — after greedily matching the five
components year, month, day, hour, minute against the literal values
(digits, month numbers, non-zero ordinal modifiers, a year over 1000 also
matchable by its last two digits) — some component among year, month, day
remains unmatched and some literal value remains unmatched; in particular,
for digits exactly 2023, 7, 15 it accepts the resolved date 2023-07-15 and
rejects 2023-07-16. -/
theorem c3_reconciler_amended :
    (∀ (d : PyDateTime) (dp : DateProps),
      check_date_parts_are_in_date d dp = false ↔
        (earlyMonthReject d dp = true ∨ greedyUnmatchedReject d dp = true))
    ∧ check_date_parts_are_in_date ⟨2023, 7, 15, 0, 0, 0, none⟩
        ⟨["2023", "7", "15"], [], [], [], [], []⟩ = true
    ∧ check_date_parts_are_in_date ⟨2023, 7, 16, 0, 0, 0, none⟩
        ⟨["2023", "7", "15"], [], [], [], [], []⟩ = false := by
  refine ⟨?_, by decide, by decide⟩
  intro d dp
  unfold check_date_parts_are_in_date
  by_cases h1 : earlyMonthReject d dp = true
  · simp [h1]
  · by_cases h2 : greedyUnmatchedReject d dp = true
    · simp [h1, h2]
    · simp [h1, h2]

/-! ### C9: midnight datetimes become plain dates -/

/-- C9: whatever the post-parse stage of `get_raw_dates` yields for a parsed
datetime is a plain calendar date (keeping only year, month, day — seconds
and timezone discarded) exactly when the datetime's hour and minute are both
zero, and the unchanged full datetime otherwise. -/
theorem c9_midnight_conversion (d : PyDateTime) (dp : DateProps)
    (v : YieldedDate) (h : postParse (some d) dp = some v) :
    ((d.hour = 0 ∧ d.minute = 0) → v = YieldedDate.date d.year d.month d.day)
    ∧ (¬(d.hour = 0 ∧ d.minute = 0) → v = YieldedDate.datetime d) := by
  by_cases hc : check_date_parts_are_in_date d dp
  · by_cases hiso : isoformatOk d
    · constructor
      · intro hm
        simp [postParse, hc, hiso, hm] at h
        exact h.symm
      · intro hm
        simp [postParse, hc, hiso, hm] at h
        exact h.symm
    · exfalso
      simp [postParse, hc, hiso] at h
  · exfalso
    simp [postParse, hc] at h

/-- C9 witness: the concrete datetime 2023-07-15 00:00:30 (non-zero seconds,
midnight hour and minute) is yielded as the plain date 2023-07-15. -/
theorem c9_midnight_conversion_witness :
    postParse (some ⟨2023, 7, 15, 0, 0, 30, none⟩)
        ⟨["2023", "7", "15"], [], [], [], [], []⟩
      = some (YieldedDate.date 2023 7 15)
    ∧ YieldedDate.date 2023 7 15 = YieldedDate.date 2023 7 15 :=
  ⟨by decide,
   (c9_midnight_conversion ⟨2023, 7, 15, 0, 0, 30, none⟩
      ⟨["2023", "7", "15"], [], [], [], [], []⟩
      (YieldedDate.date 2023 7 15) (by decide)).1 (by decide)⟩

/-! ### C6: normalization invariants of the feature vector -/

theorem listSumDivQ {α : Type} (l : List α) (f : α → ℚ) (S : ℚ) :
    (l.map (fun x => f x / S)).sum = (l.map f).sum / S := by
  induction l with
  | nil => simp
  | cons a rest ih => simp [ih, add_div]

theorem listSumCastQ {α : Type} (l : List α) (f : α → Nat) :
    (l.map (fun x => (f x : ℚ))).sum = (((l.map f).sum : Nat) : ℚ) := by
  induction l with
  | nil => simp
  | cons a rest ih => simp [ih]

theorem countChar_pos_iff (c : Char) (l : List Char) :
    0 < countChar c l ↔ c ∈ l := by
  induction l with
  | nil => simp [countChar]
  | cons x rest ih =>
    by_cases hx : x = c
    · subst hx
      simp [countChar, List.filter]
    · simp only [countChar, List.filter] at ih ⊢
      simp [hx, ih, List.mem_cons, Ne.symm hx]

theorem count2_pos_iff (a b : Char) (l : List Char) :
    0 < count2 a b l ↔ ∃ l1 l2, l = l1 ++ a :: b :: l2 := by
  induction l with
  | nil =>
    simp only [count2]
    constructor
    · intro h
      exact absurd h (by simp)
    · rintro ⟨l1, l2, h⟩
      exact absurd h.symm (by simp)
  | cons x xs ih =>
    cases xs with
    | nil =>
      simp only [count2]
      constructor
      · intro h
        exact absurd h (by simp)
      · rintro ⟨l1, l2, h⟩
        rcases l1 with _ | ⟨y, l1⟩
        · simp at h
        · simp at h
    | cons y rest =>
      by_cases hxy : x = a ∧ y = b
      · rw [show count2 a b (x :: y :: rest) = count2 a b rest + 1 from by
          simp [count2, hxy]]
        constructor
        · intro _
          exact ⟨[], rest, by simp [hxy.1, hxy.2]⟩
        · intro _
          exact Nat.succ_pos _
      · rw [show count2 a b (x :: y :: rest) = count2 a b (y :: rest) from by
          simp [count2, hxy]]
        rw [ih]
        constructor
        · rintro ⟨l1, l2, h⟩
          exact ⟨x :: l1, l2, by simp [h]⟩
        · rintro ⟨l1, l2, h⟩
          rcases l1 with _ | ⟨z, l1⟩
          · simp at h
            exact absurd ⟨h.1, h.2.1⟩ hxy
          · simp at h
            exact ⟨l1, l2, h.2⟩

theorem dateFeaturesVec_charF_norm (text : String) (s e : Nat)
    (chars : List Char) (ib : Bool) (w : Nat) (c : Char) :
    (dateFeaturesVec text s e chars ib w true).charF c =
      (if 0 < (chars.map (fun c2 => countChar c2 (featureWindowText text s e w))).sum
       then (countChar c (featureWindowText text s e w) : ℚ) /
         (((chars.map (fun c2 => countChar c2 (featureWindowText text s e w))).sum : Nat) : ℚ)
       else (countChar c (featureWindowText text s e w) : ℚ)) := rfl

theorem dateFeaturesVec_bigramF_norm (text : String) (s e : Nat)
    (chars : List Char) (w : Nat) :
    (dateFeaturesVec text s e chars true w true).bigramF =
      some (fun a b =>
        if 0 < ((perms2 chars).map
            (fun p => count2 p.1 p.2 (featureWindowText text s e w))).sum
        then (count2 a b (featureWindowText text s e w) : ℚ) /
          ((((perms2 chars).map
              (fun p => count2 p.1 p.2 (featureWindowText text s e w))).sum : Nat) : ℚ)
        else (count2 a b (featureWindowText text s e w) : ℚ)) := rfl

/-- C6: with normalization enabled (and the call's other defaults: bigram
features on, window 5, no word counting), the sum of all `char_<c>` feature
values over a duplicate-free tracked alphabet is 1 when the stripped context
window contains at least one tracked character and 0 otherwise; and,
independently, the sum of all `bigram_<c1c2>` feature values is 1 when the
window contains at least one tracked ordered bigram and 0 otherwise — the
two normalization groups never mix, each is divided only by its own sum. -/
theorem c6_norm_sums (text : String) (startIndex endIndex : Nat)
    (chars : List Char) (v : FeatureVec) (bg : Char → Char → ℚ)
    (hnd : chars.Nodup)
    (hv : get_date_features text startIndex endIndex chars none true 5 true false
      = Except.ok v)
    (hbg : v.bigramF = some bg) :
    (((∃ c ∈ chars, c ∈ featureWindowText text startIndex endIndex 5) →
        (chars.map v.charF).sum = 1)
     ∧ ((¬∃ c ∈ chars, c ∈ featureWindowText text startIndex endIndex 5) →
        (chars.map v.charF).sum = 0))
    ∧ (((∃ p ∈ perms2 chars, ∃ l1 l2,
          featureWindowText text startIndex endIndex 5 = l1 ++ p.1 :: p.2 :: l2) →
        ((perms2 chars).map (fun p => bg p.1 p.2)).sum = 1)
     ∧ ((¬∃ p ∈ perms2 chars, ∃ l1 l2,
          featureWindowText text startIndex endIndex 5 = l1 ++ p.1 :: p.2 :: l2) →
        ((perms2 chars).map (fun p => bg p.1 p.2)).sum = 0)) := by
  have hveq : v = dateFeaturesVec text startIndex endIndex chars true 5 true := by
    have h2 : (Except.ok (dateFeaturesVec text startIndex endIndex chars true 5 true)
        : Except String FeatureVec) = Except.ok v := hv
    injection h2 with h3
    exact h3.symm
  subst hveq
  have hbg2 : bg = fun a b =>
      if 0 < ((perms2 chars).map
          (fun p => count2 p.1 p.2 (featureWindowText text startIndex endIndex 5))).sum
      then (count2 a b (featureWindowText text startIndex endIndex 5) : ℚ) /
        ((((perms2 chars).map
            (fun p => count2 p.1 p.2 (featureWindowText text startIndex endIndex 5))).sum
          : Nat) : ℚ)
      else (count2 a b (featureWindowText text startIndex endIndex 5) : ℚ) := by
    have h4 := (dateFeaturesVec_bigramF_norm text startIndex endIndex chars 5).symm.trans hbg
    injection h4 with h5
    exact h5.symm
  constructor
  · -- char family
    constructor
    · rintro ⟨c0, hc0, hc0f⟩
      have hpos : 0 < (chars.map
          (fun c2 => countChar c2 (featureWindowText text startIndex endIndex 5))).sum := by
        have h6 : 0 < countChar c0 (featureWindowText text startIndex endIndex 5) :=
          (countChar_pos_iff c0 _).mpr hc0f
        have h7 : countChar c0 (featureWindowText text startIndex endIndex 5) ≤
            (chars.map
              (fun c2 => countChar c2 (featureWindowText text startIndex endIndex 5))).sum :=
          List.single_le_sum (fun y _ => Nat.zero_le y) _
            (List.mem_map.mpr ⟨c0, hc0, rfl⟩)
        exact Nat.lt_of_lt_of_le h6 h7
      have hmap : chars.map (dateFeaturesVec text startIndex endIndex chars true 5 true).charF
          = chars.map (fun c =>
              (countChar c (featureWindowText text startIndex endIndex 5) : ℚ) /
              (((chars.map
                (fun c2 => countChar c2 (featureWindowText text startIndex endIndex 5))).sum
                : Nat) : ℚ)) := by
        apply List.map_congr_left
        intro c _
        rw [dateFeaturesVec_charF_norm, if_pos hpos]
      rw [hmap, listSumDivQ, listSumCastQ]
      exact div_self (Nat.cast_ne_zero.mpr (Nat.pos_iff_ne_zero.mp hpos))
    · intro hno
      have hzero : ∀ c ∈ chars,
          countChar c (featureWindowText text startIndex endIndex 5) = 0 := by
        intro c hc
        by_contra hne
        exact hno ⟨c, hc, (countChar_pos_iff c _).mp (Nat.pos_iff_ne_zero.mpr hne)⟩
      have hS0 : (chars.map
          (fun c2 => countChar c2 (featureWindowText text startIndex endIndex 5))).sum = 0 :=
        List.sum_eq_zero_iff.mpr (by
          intro x hx
          rcases List.mem_map.mp hx with ⟨c, hc, rfl⟩
          exact hzero c hc)
      have hmap : chars.map (dateFeaturesVec text startIndex endIndex chars true 5 true).charF
          = chars.map (fun _ => (0 : ℚ)) := by
        apply List.map_congr_left
        intro c hc
        rw [dateFeaturesVec_charF_norm, if_neg (by simp [hS0]), hzero c hc]
        simp
      rw [hmap]
      simp
  · -- bigram family
    constructor
    · rintro ⟨p0, hp0, l1, l2, hdec⟩
      have hpos : 0 < ((perms2 chars).map
          (fun p => count2 p.1 p.2 (featureWindowText text startIndex endIndex 5))).sum := by
        have h6 : 0 < count2 p0.1 p0.2 (featureWindowText text startIndex endIndex 5) :=
          (count2_pos_iff p0.1 p0.2 _).mpr ⟨l1, l2, hdec⟩
        have h7 : count2 p0.1 p0.2 (featureWindowText text startIndex endIndex 5) ≤
            ((perms2 chars).map
              (fun p => count2 p.1 p.2 (featureWindowText text startIndex endIndex 5))).sum :=
          List.single_le_sum (fun y _ => Nat.zero_le y) _
            (List.mem_map.mpr ⟨p0, hp0, rfl⟩)
        exact Nat.lt_of_lt_of_le h6 h7
      have hmap : (perms2 chars).map (fun p => bg p.1 p.2)
          = (perms2 chars).map (fun p =>
              (count2 p.1 p.2 (featureWindowText text startIndex endIndex 5) : ℚ) /
              ((((perms2 chars).map
                (fun q => count2 q.1 q.2 (featureWindowText text startIndex endIndex 5))).sum
                : Nat) : ℚ)) := by
        apply List.map_congr_left
        intro p _
        rw [hbg2]
        simp only
        rw [if_pos hpos]
      rw [hmap, listSumDivQ, listSumCastQ]
      exact div_self (Nat.cast_ne_zero.mpr (Nat.pos_iff_ne_zero.mp hpos))
    · intro hno
      have hzero : ∀ p ∈ perms2 chars,
          count2 p.1 p.2 (featureWindowText text startIndex endIndex 5) = 0 := by
        intro p hp
        by_contra hne
        rcases (count2_pos_iff p.1 p.2 _).mp (Nat.pos_iff_ne_zero.mpr hne) with ⟨l1, l2, hdec⟩
        exact hno ⟨p, hp, l1, l2, hdec⟩
      have hB0 : ((perms2 chars).map
          (fun p => count2 p.1 p.2 (featureWindowText text startIndex endIndex 5))).sum = 0 :=
        List.sum_eq_zero_iff.mpr (by
          intro x hx
          rcases List.mem_map.mp hx with ⟨p, hp, rfl⟩
          exact hzero p hp)
      have hmap : (perms2 chars).map (fun p => bg p.1 p.2)
          = (perms2 chars).map (fun _ => (0 : ℚ)) := by
        apply List.map_congr_left
        intro p hp
        rw [hbg2]
        simp only
        rw [if_neg (by simp [hB0]), hzero p hp]
        simp
      rw [hmap]
      simp

/-- C6 witness: for the alphabet a, b over the text "ab" the normalized
char-family values sum to 1. -/
theorem c6_norm_sums_witness :
    (['a', 'b'].map (dateFeaturesVec "ab" 0 2 ['a', 'b'] true 5 true).charF).sum = 1 := by
  have h := c6_norm_sums "ab" 0 2 ['a', 'b']
    (dateFeaturesVec "ab" 0 2 ['a', 'b'] true 5 true)
    (fun a b =>
      if 0 < ((perms2 ['a', 'b']).map
          (fun p => count2 p.1 p.2 (featureWindowText "ab" 0 2 5))).sum
      then (count2 a b (featureWindowText "ab" 0 2 5) : ℚ) /
        ((((perms2 ['a', 'b']).map
            (fun p => count2 p.1 p.2 (featureWindowText "ab" 0 2 5))).sum : Nat) : ℚ)
      else (count2 a b (featureWindowText "ab" 0 2 5) : ℚ))
    (by decide) rfl (dateFeaturesVec_bigramF_norm "ab" 0 2 ['a', 'b'] 5)
  exact h.1.1 ⟨'a', by decide, by decide⟩

/-! ### C10: word counting with the default alphabet raises TypeError -/

/-- C10: calling `get_date_features` with word counting enabled but the
alphabet character set left at its default (`False` in the source, modelled
as `none`) fails with a `TypeError` whenever the candidate text has at least
one non-empty separator-split token, because the first such token's first
character is tested for membership in the boolean `False`; the word-shape
path is total only when a character set is supplied. -/
theorem c10_count_words_type_error (text : String) (startIndex endIndex : Nat)
    (chars : List Char) (ib : Bool) (w : Nat) (norm : Bool)
    (h : ∃ t ∈ split_date_words
      ((text.data.drop startIndex).take (endIndex - startIndex)), t ≠ []) :
    get_date_features text startIndex endIndex chars none ib w norm true
      = Except.error "TypeError: argument of type bool is not iterable" := by
  have hany : (split_date_words
      ((text.data.drop startIndex).take (endIndex - startIndex))).any
        (fun t => !t.isEmpty) = true := by
    rcases h with ⟨t, ht, hne⟩
    rw [List.any_eq_true]
    exact ⟨t, ht, by simpa [List.isEmpty_iff] using hne⟩
  simp [get_date_features, hany]

/-- C10 witness: the candidate text "2023" (one non-empty token) with word
counting enabled and the default alphabet raises the error. -/
theorem c10_count_words_type_error_witness :
    get_date_features "2023" 0 4 ['a'] none true 5 true true
      = Except.error "TypeError: argument of type bool is not iterable" :=
  c10_count_words_type_error "2023" 0 4 ['a'] true 5 true
    ⟨['2', '0', '2', '3'], by decide, by decide⟩

/-! ### C1: emitted annotation scores -/

/-- C1: when the classifier's true-positive probability is always in [0, 1],
every record emitted by the scoring loop has a score in [0, 1] that is at
least the caller-supplied threshold — no record with a lower score is ever
produced. -/
theorem c1_score_bounds (predictProba : List ℚ → ℚ) (columns : List FeatureKey)
    (modelChars : List Char) (text : String) (threshold : ℚ)
    (rawDates : List (YieldedDate × (Nat × Nat)))
    (hp : ∀ fl, 0 ≤ predictProba fl ∧ predictProba fl ≤ 1) :
    ∀ a ∈ get_date_annots predictProba columns modelChars text threshold rawDates,
      0 ≤ a.score ∧ a.score ≤ 1 ∧ threshold ≤ a.score := by
  intro a ha
  simp only [get_date_annots, List.mem_filterMap] at ha
  rcases ha with ⟨rd, _, hmap⟩
  by_cases hth : threshold ≤ predictProba (columns.map (vecLookup
      (dateFeaturesVec text rd.2.1 rd.2.2 modelChars true 5 true)))
  · rw [if_pos hth] at hmap
    obtain rfl := Option.some.inj hmap
    exact ⟨(hp _).1, (hp _).2, hth⟩
  · rw [if_neg hth] at hmap
    exact absurd hmap (by simp)

/-- C1 witness: a constant-1 classifier with threshold 0 over one raw date
emits one record, and its score obeys the bounds. -/
theorem c1_score_bounds_witness :
    (0 : ℚ) ≤ (⟨(0, 1), "a", YieldedDate.date 2020 1 5, 1⟩ : DateAnnot).score
    ∧ (⟨(0, 1), "a", YieldedDate.date 2020 1 5, 1⟩ : DateAnnot).score ≤ 1
    ∧ (0 : ℚ) ≤ (⟨(0, 1), "a", YieldedDate.date 2020 1 5, 1⟩ : DateAnnot).score :=
  c1_score_bounds (fun _ => 1) [] [] "ab" 0
    [(YieldedDate.date 2020 1 5, (0, 1))]
    (fun _ => ⟨by norm_num, by norm_num⟩)
    ⟨(0, 1), "a", YieldedDate.date 2020 1 5, 1⟩ (by decide)
